import Mathlib

/-!
Shallow embedding of a Nylas-calendar convenience layer (`utils.py`) and proofs
about its spec.  The external `pendulum` datetime library is modelled as a
fixed-offset civil-calendar model over epoch seconds; the Nylas SDK collaborator
is modelled as an explicit record of (possibly failing) operations plus a
scripted sequence of list pages; the HTML sanitizer and fuzzy scorer are
pluggable function parameters, as the spec treats them as external collaborators.
-/

namespace CalSpec

/-- Error taxonomy of the Python code: `ValueError`, pendulum `ParserError`,
and the three Nylas SDK error classes plus a catch-all. -/
inductive Err where
  | valueError (msg : String)
  | parserError (msg : String)
  | nylasApiError (msg : String)
  | nylasOAuthError (msg : String)
  | nylasTimeout (msg : String)
  | unknownError (msg : String)
deriving Repr, DecidableEq

/-! ## Civil (proleptic Gregorian) calendar arithmetic, modelling pendulum -/

/-- Gregorian leap-year rule. -/
def isLeap (y : Int) : Bool := y % 4 = 0 && (y % 100 ≠ 0 || y % 400 = 0)

/-- Number of days in month `m` of year `y`. -/
def daysInMonth (y m : Int) : Int :=
  if m = 2 then (if isLeap y then 29 else 28)
  else if m = 4 || m = 6 || m = 9 || m = 11 then 30
  else 31

/-- Civil date (year, month, day) from days since the Unix epoch. -/
def civilFromDays (z0 : Int) : Int × Int × Int :=
  let z := z0 + 719468
  let era := z.fdiv 146097
  let doe := z - era * 146097
  let yoe := (doe - doe.fdiv 1460 + doe.fdiv 36524 - doe.fdiv 146096).fdiv 365
  let doy := doe - (365 * yoe + yoe.fdiv 4 - yoe.fdiv 100)
  let mp := (5 * doy + 2).fdiv 153
  let d := doy - (153 * mp + 2).fdiv 5 + 1
  let m := if mp < 10 then mp + 3 else mp - 9
  (yoe + era * 400 + (if m ≤ 2 then 1 else 0), m, d)

/-- Days since the Unix epoch from a civil date. -/
def daysFromCivil (y m d : Int) : Int :=
  let y1 := if m ≤ 2 then y - 1 else y
  let era := y1.fdiv 400
  let yoe := y1 - era * 400
  let mp := if m > 2 then m - 3 else m + 9
  let doy := (153 * mp + 2).fdiv 5 + d - 1
  let doe := yoe * 365 + yoe.fdiv 4 - yoe.fdiv 100 + doy
  era * 146097 + doe - 719468


/-! ## Fixed-offset timezone model for pendulum -/

/-- Fixed offset (seconds east of UTC) of a named zone; the model ignores DST. -/
def tz_offset (tz : String) : Int :=
  if tz = "UTC" then 0
  else if tz = "America/New_York" then -18000
  else if tz = "Europe/Paris" then 3600
  else 0

/-- A pendulum `DateTime`: an absolute instant (epoch seconds) plus the zone
used for its local representation. -/
structure PDateTime where
  epoch : Int
  tz : String
deriving Repr, DecidableEq

namespace PDateTime

/-- `pendulum.DateTime.int_timestamp`. -/
def int_timestamp (dt : PDateTime) : Int := dt.epoch

/-- `.in_timezone(tz)`: same instant, new display zone. -/
def in_timezone (dt : PDateTime) (tz : String) : PDateTime := ⟨dt.epoch, tz⟩

/-- Seconds of local time (relative to the local epoch) in the display zone. -/
def localSeconds (dt : PDateTime) : Int := dt.epoch + tz_offset dt.tz

/-- `.start_of(day)`: local midnight of the current local day. -/
def start_of_day (dt : PDateTime) : PDateTime :=
  ⟨86400 * (dt.localSeconds.fdiv 86400) - tz_offset dt.tz, dt.tz⟩

/-- `.end_of(day)` truncated to whole seconds (pendulum gives 23:59:59.999999;
`int_timestamp` of it is the last whole second of the local day). -/
def end_of_day (dt : PDateTime) : PDateTime :=
  ⟨(dt.start_of_day).epoch + 86399, dt.tz⟩

/-- `.add(minutes=m)`. -/
def add_minutes (dt : PDateTime) (m : Int) : PDateTime := ⟨dt.epoch + 60 * m, dt.tz⟩

/-- `.add(days=n)` / `.subtract(days=n)` with negative `n`. -/
def add_days (dt : PDateTime) (n : Int) : PDateTime := ⟨dt.epoch + 86400 * n, dt.tz⟩

/-- `.subtract(days=n)`. -/
def sub_days (dt : PDateTime) (n : Int) : PDateTime := dt.add_days (-n)

/-- `.add(weeks=n)`. -/
def add_weeks (dt : PDateTime) (n : Int) : PDateTime := dt.add_days (7 * n)

/-- `.add(years=n)` (or subtract, with `n` negative): calendar-year shift in the
local zone, clamping Feb 29 to Feb 28 like pendulum does. -/
def add_years (dt : PDateTime) (n : Int) : PDateTime :=
  let off := tz_offset dt.tz
  let loc := dt.epoch + off
  let days := loc.fdiv 86400
  let tod := loc - 86400 * days
  let ymd := civilFromDays days
  let y := ymd.1 + n
  let m := ymd.2.1
  let d := if ymd.2.2 ≤ daysInMonth y m then ymd.2.2 else daysInMonth y m
  ⟨86400 * daysFromCivil y m d + tod - off, dt.tz⟩

end PDateTime

/-! ## Digit formatting and parsing for date strings -/

def digitChar (n : Nat) : Char := Char.ofNat (48 + n % 10)

def pad2 (n : Nat) : String := String.mk [digitChar (n / 10), digitChar n]

def pad4 (n : Nat) : String :=
  String.mk [digitChar (n / 1000), digitChar (n / 100), digitChar (n / 10), digitChar n]

/-- `.to_date_string()`: the local civil date as "YYYY-MM-DD". -/
def PDateTime.to_date_string (dt : PDateTime) : String :=
  let days := dt.localSeconds.fdiv 86400
  let ymd := civilFromDays days
  pad4 ymd.1.toNat ++ "-" ++ pad2 ymd.2.1.toNat ++ "-" ++ pad2 ymd.2.2.toNat

def isDigitCh (c : Char) : Bool := 48 ≤ c.toNat && c.toNat ≤ 57

def digitVal (c : Char) : Nat := c.toNat - 48

def num2 (a b : Char) : Nat := 10 * digitVal a + digitVal b

def num4 (a b c d : Char) : Nat :=
  1000 * digitVal a + 100 * digitVal b + 10 * digitVal c + digitVal d

/-- Is `(y, m, d)` a valid civil date (years as in the Python `datetime` range)? -/
def validDate (y m d : Int) : Bool :=
  1 ≤ y && y ≤ 9999 && 1 ≤ m && m ≤ 12 && 1 ≤ d && d ≤ daysInMonth y m

/-- `pendulum.parse(s, tz=tz)`: accepts ISO "YYYY-MM-DD" and
"YYYY-MM-DDTHH:MM:SS" strings, interpreted in zone `tz`; `none` models the
`ParserError` raised on anything else. -/
def pendulum_parse (s : String) (tz : String) : Option PDateTime :=
  match s.toList with
  | [y1, y2, y3, y4, h1, m1, m2, h2, d1, d2] =>
    if isDigitCh y1 && isDigitCh y2 && isDigitCh y3 && isDigitCh y4 &&
       h1 = '-' && isDigitCh m1 && isDigitCh m2 && h2 = '-' &&
       isDigitCh d1 && isDigitCh d2 then
      let y : Int := num4 y1 y2 y3 y4
      let m : Int := num2 m1 m2
      let d : Int := num2 d1 d2
      if validDate y m d then
        some ⟨86400 * daysFromCivil y m d - tz_offset tz, tz⟩
      else none
    else none
  | [y1, y2, y3, y4, h1, m1, m2, h2, d1, d2, t, hh1, hh2, c1, mi1, mi2, c2, ss1, ss2] =>
    if isDigitCh y1 && isDigitCh y2 && isDigitCh y3 && isDigitCh y4 &&
       h1 = '-' && isDigitCh m1 && isDigitCh m2 && h2 = '-' &&
       isDigitCh d1 && isDigitCh d2 && t = 'T' &&
       isDigitCh hh1 && isDigitCh hh2 && c1 = ':' &&
       isDigitCh mi1 && isDigitCh mi2 && c2 = ':' &&
       isDigitCh ss1 && isDigitCh ss2 then
      let y : Int := num4 y1 y2 y3 y4
      let m : Int := num2 m1 m2
      let d : Int := num2 d1 d2
      let hh : Nat := num2 hh1 hh2
      let mi : Nat := num2 mi1 mi2
      let ss : Nat := num2 ss1 ss2
      if validDate y m d && hh < 24 && mi < 60 && ss < 60 then
        some ⟨86400 * daysFromCivil y m d + (3600 * hh + 60 * mi + ss : Nat) - tz_offset tz, tz⟩
      else none
    else none
  | _ => none


/-! ## Data model (`utils.py` plus the Nylas SDK event types) -/

/-- The four Nylas "when" variants (`Time | Timespan | Date | Datespan`), plus
`unknown`, standing for any other dynamically-typed shape reaching
the `else` branch of `parse_when`. -/
inductive WhenData where
  | time (time : Int) (timezone : String)
  | timespan (start_time end_time : Int) (start_timezone end_timezone : String)
  | date (date : String)
  | datespan (start_date end_date : String)
  | unknown (shape : String)
deriving Repr, DecidableEq

/-- Is the variant date-based (`Date` or `Datespan`)? -/
def WhenData.isDateBased : WhenData → Bool
  | .date _ => true
  | .datespan _ _ => true
  | _ => false

/-- A Nylas participant (only the email field is used by this code). -/
structure Participant where
  email : String
deriving Repr, DecidableEq

/-- The fields of a Nylas SDK `Event` that `utils.py` reads. -/
structure NylasEvent where
  id : String
  title : String
  when : WhenData
  participants : List Participant := []
  location : Option String := none
  description : Option String := none
  metadata : Option (List (String × String)) := none
  visibility : Option String := none
  busy : Option Bool := none
  capacity : Option Int := none
  hide_participants : Option Bool := none
deriving Repr, DecidableEq

/-- The Nylas SDK `CreateEventRequest` as built by this code. -/
structure CreateEventRequest where
  title : String
  when : WhenData
  location : Option String := none
  description : Option String := none
  participants : Option (List Participant) := none
  metadata : Option (List (String × String)) := none
  visibility : Option String := none
  busy : Option Bool := none
  capacity : Option Int := none
  hide_participants : Option Bool := none
deriving Repr, DecidableEq

/-- `EventData`: the caller-facing event input. -/
structure EventData where
  title : String
  when : String
  duration_minutes : Int := 30
  location : Option String := none
  description : Option String := none
  attendees : Option (List String) := none
  metadata : Option (List (String × String)) := none
  visibility : Option String := none
  busy : Option Bool := none
  capacity : Option Int := none
  hide_participants : Option Bool := none
  all_day : Bool := false
deriving Repr, DecidableEq

/-- `Event`: the normalized event returned to callers. -/
structure Event where
  id : String
  title : String
  start_time : Option PDateTime := none
  end_time : Option PDateTime := none
  all_day : Bool := false
  location : Option String := none
  description : Option String := none
  attendees : Option (List String) := none
  metadata : Option (List (String × String)) := none
deriving Repr, DecidableEq

/-- `ActionHistoryEntry`. -/
structure ActionHistoryEntry where
  action : String
  event_id : String
  event_data : Option NylasEvent := none
deriving Repr, DecidableEq

/-- `html_to_plain_text`, with the BeautifulSoup text extraction supplied as the
external `sanitize` collaborator; an empty or absent input yields `none`
(the Python falsiness check). -/
def html_to_plain_text (sanitize : String → String) : Option String → Option String
  | some s => if s = "" then none else some (sanitize s)
  | none => none

/-- `parse_when`: the Time Normalizer.  Returns (start, end, all_day) or the
error the Python code raises (`ValueError` for an unknown shape, the pendulum
parse error for a malformed date string). -/
def parse_when (when_data : WhenData) (user_timezone : String) :
    Except Err (Option PDateTime × Option PDateTime × Bool) :=
  match when_data with
  | .time time_ts timezone =>
    let t := (PDateTime.in_timezone ⟨time_ts, "UTC"⟩ timezone)
    .ok (some t, some t, false)
  | .timespan start_ts end_ts start_timezone end_timezone =>
    .ok (some (PDateTime.in_timezone ⟨start_ts, "UTC"⟩ start_timezone),
         some (PDateTime.in_timezone ⟨end_ts, "UTC"⟩ end_timezone), false)
  | .date date_str =>
    match pendulum_parse date_str user_timezone with
    | none => .error (.parserError date_str)
    | some dt =>
      let start_time := dt.start_of_day
      .ok (some start_time, some start_time.end_of_day, true)
  | .datespan start_date_str end_date_str =>
    match pendulum_parse start_date_str user_timezone with
    | none => .error (.parserError start_date_str)
    | some sdt =>
      match pendulum_parse end_date_str user_timezone with
      | none => .error (.parserError end_date_str)
      | some edt => .ok (some sdt.start_of_day, some edt.end_of_day, true)
  | .unknown _ => .error (.valueError "Unknown when_data type.")

/-- Python `metadata or None`: an empty or absent mapping becomes `None`. -/
def metaOrNone : Option (List (String × String)) → Option (List (String × String))
  | some m => if m = [] then none else some m
  | none => none

/-- `parse_nylas_event`: normalize a Nylas event. -/
def parse_nylas_event (sanitize : String → String) (event : NylasEvent)
    (user_timezone : String) : Except Err Event :=
  match parse_when event.when user_timezone with
  | .error e => .error e
  | .ok (start_time, end_time, all_day) =>
    let attendees :=
      if event.participants = [] then none
      else some (event.participants.map (fun p => p.email))
    .ok { id := event.id
          title := event.title
          start_time := start_time
          end_time := end_time
          all_day := all_day
          location := event.location
          description := html_to_plain_text sanitize event.description
          attendees := attendees
          metadata := metaOrNone event.metadata }

/-- A Python list comprehension `[parse_nylas_event(ev, tz) for ev in events]`:
parse in order, propagating the first failure. -/
def parseEvents (sanitize : String → String) (user_timezone : String) :
    List NylasEvent → Except Err (List Event)
  | [] => .ok []
  | ev :: rest =>
    match parse_nylas_event sanitize ev user_timezone with
    | .error e => .error e
    | .ok x =>
      match parseEvents sanitize user_timezone rest with
      | .error e => .error e
      | .ok xs => .ok (x :: xs)

/-- `fuzzy_search_events`, with the fuzzywuzzy `partial` similarity scorer
supplied as the external `score` collaborator (0–100).  The stable Python
`list.sort(key=..., reverse=True)` is modelled by a stable merge sort with a
descending comparison. -/
def fuzzy_search_events (score : String → String → Nat) (events : List Event)
    (search_query : String) (threshold : Nat := 80) : List Event :=
  let similarity := fun (e : Event) => score search_query.toLower e.title.toLower
  let matching_events := events.filter (fun e => threshold ≤ similarity e)
  matching_events.mergeSort (fun a b => similarity b ≤ similarity a)

/-! ## The external Nylas API collaborator and the scheduler facade -/

/-- `ListEventQueryParams` as built by this code.  `end_` is the `end` query
parameter. -/
structure ListEventQueryParams where
  calendar_id : String
  start : Int
  end_ : Option Int := none
  limit : Nat
  expand_recurring : Bool := false
  page_token : Option String := none
deriving Repr, DecidableEq

instance {ε α : Type} [DecidableEq ε] [DecidableEq α] : DecidableEq (Except ε α)
  | .error e, .error f => decidable_of_iff (e = f) (by simp)
  | .error _, .ok _ => isFalse (by simp)
  | .ok _, .error _ => isFalse (by simp)
  | .ok a, .ok b => decidable_of_iff (a = b) (by simp)

/-- One scripted response of the collaborator paged `events.list`. -/
structure PageScript where
  resp : Except Err (List NylasEvent)
  next_cursor : Option String := none
deriving Repr, DecidableEq

/-- The external Nylas API collaborator, as a mock: deterministic single-shot
operations, plus a script of paged list responses served in order. -/
structure Api where
  find : String → Except Err NylasEvent
  destroy : String → Except Err Unit
  create : CreateEventRequest → Except Err NylasEvent
  listSingle : ListEventQueryParams → Except Err (List NylasEvent)
  pages : List PageScript
  sanitize : String → String

/-- A call issued to the collaborator (the observable trace of an operation). -/
inductive ApiCall where
  | find (event_id : String)
  | destroy (event_id : String)
  | create (req : CreateEventRequest)
  | list (qp : ListEventQueryParams)
deriving Repr, DecidableEq

/-- The outbound half of `create_event` (the Event Translator): build the
`CreateEventRequest` from an `EventData`, or `none` when the `when` string does
not parse. -/
def toCreateRequest (user_timezone : String) (event_data : EventData) :
    Option CreateEventRequest :=
  match pendulum_parse event_data.when user_timezone with
  | none => none
  | some start_time =>
    let end_time := start_time.add_minutes event_data.duration_minutes
    let when :=
      if event_data.all_day then WhenData.date start_time.to_date_string
      else WhenData.timespan start_time.int_timestamp end_time.int_timestamp
             user_timezone user_timezone
    let participants :=
      match event_data.attendees with
      | some atts => if atts = [] then none else some (atts.map Participant.mk)
      | none => none
    some { title := event_data.title
           when := when
           location := event_data.location
           description := event_data.description
           participants := participants
           metadata := event_data.metadata
           visibility := event_data.visibility
           busy := event_data.busy
           capacity := event_data.capacity
           hide_participants := event_data.hide_participants }

/-- `create_event`: translate, create via the collaborator, record a `create`
history entry, return the normalized event.  Result × new history × trace. -/
def create_event (api : Api) (user_timezone calendar_id : String)
    (hist : List ActionHistoryEntry) (event_data : EventData) :
    Except Err Event × List ActionHistoryEntry × List ApiCall :=
  match toCreateRequest user_timezone event_data with
  | none => (.error (.parserError event_data.when), hist, [])
  | some req =>
    match api.create req with
    | .error e => (.error e, hist, [.create req])
    | .ok resp =>
      let hist' := hist ++ [{ action := "create", event_id := resp.id }]
      match parse_nylas_event api.sanitize resp user_timezone with
      | .error e => (.error e, hist', [.create req])
      | .ok ev => (.ok ev, hist', [.create req])

/-- `delete_event`: fetch the snapshot first, then delete, then record a
`delete` entry carrying the snapshot.  Any collaborator failure propagates. -/
def delete_event (api : Api) (calendar_id : String)
    (hist : List ActionHistoryEntry) (event_id : String) :
    Except Err Unit × List ActionHistoryEntry × List ApiCall :=
  match api.find event_id with
  | .error e => (.error e, hist, [.find event_id])
  | .ok event =>
    match api.destroy event_id with
    | .error e => (.error e, hist, [.find event_id, .destroy event_id])
    | .ok _ =>
      (.ok (),
       hist ++ [{ action := "delete", event_id := event_id, event_data := some event }],
       [.find event_id, .destroy event_id])

/-- The `CreateEventRequest` that `undo_last_action` rebuilds from a snapshot
(read-only fields dropped). -/
def undoRecreateRequest (event : NylasEvent) : CreateEventRequest :=
  { title := event.title
    when := event.when
    location := event.location
    description := event.description
    participants := some event.participants
    metadata := event.metadata
    visibility := event.visibility
    busy := event.busy
    capacity := event.capacity
    hide_participants := event.hide_participants }

/-- `undo_last_action`: pop the most recent history entry and reverse it. -/
def undo_last_action (api : Api) (calendar_id : String)
    (hist : List ActionHistoryEntry) :
    Except Err String × List ActionHistoryEntry × List ApiCall :=
  match hist.getLast? with
  | none => (.ok "No actions to undo.", hist, [])
  | some last_action =>
    let hist' := hist.dropLast
    let event_id := last_action.event_id
    if last_action.action = "create" then
      match api.destroy event_id with
      | .error e => (.error e, hist', [.destroy event_id])
      | .ok _ =>
        (.ok ("Creation of event " ++ event_id ++ " has been undone."),
         hist', [.destroy event_id])
    else if last_action.action = "delete" then
      match last_action.event_data with
      | none => (.ok "No event data to recreate the event.", hist', [])
      | some event =>
        let req := undoRecreateRequest event
        match api.create req with
        | .error e => (.error e, hist', [.create req])
        | .ok recreated_event =>
          (.ok ("Deletion of event " ++ event_id ++ " has been undone. New event ID is "
                ++ recreated_event.id ++ "."),
           hist', [.create req])
    else (.ok "Unknown action.", hist', [])

/-- Python `end or None` on an optional int. -/
def pyOrNone : Option Int → Option Int
  | some v => if v = 0 then none else some v
  | none => none

/-- Python `limit or 100`. -/
def pyLimitOr100 : Option Nat → Nat
  | some v => if v = 0 then 100 else v
  | none => 100

/-- `get_events`: a single-page list. -/
def get_events (api : Api) (user_timezone calendar_id : String) (start : Int)
    (end_ : Option Int) (limit : Option Nat) :
    Except Err (List Event) × List ApiCall :=
  let qp : ListEventQueryParams :=
    { calendar_id := calendar_id
      start := start
      expand_recurring := true
      end_ := pyOrNone end_
      limit := pyLimitOr100 limit }
  match api.listSingle qp with
  | .error e => (.error e, [.list qp])
  | .ok events =>
    match parseEvents api.sanitize user_timezone events with
    | .error e => (.error e, [.list qp])
    | .ok parsed_events => (.ok parsed_events, [.list qp])

/-- `get_todays_events`: window from `start_of(day)` to `end_of(day)` of the
reference date (which defaults to `pendulum.now(user_timezone)`; the current
instant is a parameter here). -/
def get_todays_events (api : Api) (user_timezone calendar_id : String)
    (reference_date : PDateTime) : Except Err (List Event) × List ApiCall :=
  let today := reference_date.start_of_day
  let tomorrow := reference_date.end_of_day
  get_events api user_timezone calendar_id today.int_timestamp
    (some tomorrow.int_timestamp) none

/-- `get_next_three_days_events` (now is a parameter). -/
def get_next_three_days_events (api : Api) (user_timezone calendar_id : String)
    (now : PDateTime) : Except Err (List Event) × List ApiCall :=
  let today := now.start_of_day
  get_events api user_timezone calendar_id today.int_timestamp
    (some (today.add_days 3).int_timestamp) none

/-- `get_next_week_events` (now is a parameter). -/
def get_next_week_events (api : Api) (user_timezone calendar_id : String)
    (now : PDateTime) : Except Err (List Event) × List ApiCall :=
  let today := now.start_of_day
  get_events api user_timezone calendar_id today.int_timestamp
    (some (today.add_weeks 1).int_timestamp) none

/-- The fixed-field query parameters of one paged `events.list` request. -/
def mkPageQP (calendar_id : String) (start end_ : Int) (tok : Option String) :
    ListEventQueryParams :=
  { calendar_id := calendar_id
    start := start
    end_ := some end_
    limit := 200
    page_token := tok }

/-- The pagination loop of `get_all_events`: consume the scripted pages in
order, accumulating parsed events, until a page reports no continuation cursor;
any page failure aborts.  Returns the result and the issued requests. -/
def gae_loop (sanitize : String → String) (user_timezone calendar_id : String)
    (start end_ : Int) : List PageScript → Option String → List Event →
    Except Err (List Event) × List ListEventQueryParams
  | [], page_token, _ =>
    (.error (.unknownError "collaborator script exhausted"),
     [mkPageQP calendar_id start end_ page_token])
  | p :: rest, page_token, all_events =>
    let qp := mkPageQP calendar_id start end_ page_token
    match p.resp with
    | .error e => (.error e, [qp])
    | .ok events =>
      match parseEvents sanitize user_timezone events with
      | .error e => (.error e, [qp])
      | .ok parsed =>
        let all_events' := all_events ++ parsed
        match p.next_cursor with
        | none => (.ok all_events', [qp])
        | some c =>
          let r := gae_loop sanitize user_timezone calendar_id start end_ rest (some c) all_events'
          (r.1, qp :: r.2)

/-- `get_all_events`: full pagination; default end is one calendar year after
`start`. -/
def get_all_events (api : Api) (user_timezone calendar_id : String)
    (start : Int) (end_ : Option Int) :
    Except Err (List Event) × List ListEventQueryParams :=
  let endv :=
    match end_ with
    | none => (PDateTime.add_years ⟨start, "UTC"⟩ 1).int_timestamp
    | some e => e
  gae_loop api.sanitize user_timezone calendar_id start endv api.pages none []

/-- The per-event deletion loop of `cleanup_calendar`: attempt each deletion,
counting successes; failures are logged and skipped. -/
def cleanup_loop (api : Api) (calendar_id : String) :
    List Event → List ActionHistoryEntry →
    Nat × List ActionHistoryEntry × List ApiCall
  | [], hist => (0, hist, [])
  | ev :: rest, hist =>
    match delete_event api calendar_id hist ev.id with
    | (.ok _, hist1, calls1) =>
      let r := cleanup_loop api calendar_id rest hist1
      (r.1 + 1, r.2.1, calls1 ++ r.2.2)
    | (.error _, hist1, calls1) =>
      let r := cleanup_loop api calendar_id rest hist1
      (r.1, r.2.1, calls1 ++ r.2.2)

/-- `cleanup_calendar`: list everything in the retention window, delete each
individually (skipping failures), and report.  The `Nat × Nat` result is
(count printed in the final message, number of deletions that succeeded): the
code prints `len(events_to_delete)`. -/
def cleanup_calendar (api : Api) (user_timezone calendar_id : String)
    (now : PDateTime) (days_to_keep : Int)
    (hist : List ActionHistoryEntry) :
    Except Err (Nat × Nat) × List ActionHistoryEntry × List ApiCall :=
  let start_date := (now.add_years (-10)).start_of_day
  let end_date := (now.sub_days days_to_keep).end_of_day
  match get_all_events api user_timezone calendar_id
      start_date.int_timestamp (some end_date.int_timestamp) with
  | (.error e, tr) => (.error e, hist, tr.map ApiCall.list)
  | (.ok events_to_delete, tr) =>
    let r := cleanup_loop api calendar_id events_to_delete hist
    (.ok (events_to_delete.length, r.1), r.2.1, tr.map ApiCall.list ++ r.2.2)

/-! ## Mock collaborators used by concrete witnesses -/

/-- A concrete Nylas event used as a deletion snapshot in witnesses. -/
def wNev : NylasEvent :=
  { id := "evt1", title := "Team Sync", when := .time 1697364000 "UTC" }

/-- A collaborator whose operations all succeed; `create` echoes the request
back with a fresh id, as the mocked-collaborator tests of the spec do. -/
def wApiOk : Api :=
  { find := fun _ => .ok wNev
    destroy := fun _ => .ok ()
    create := fun req =>
      .ok { id := "new1", title := req.title, when := req.when
            participants := req.participants.getD []
            location := req.location, description := req.description
            metadata := req.metadata, visibility := req.visibility
            busy := req.busy, capacity := req.capacity
            hide_participants := req.hide_participants }
    listSingle := fun _ => .ok []
    pages := []
    sanitize := fun s => s }

/-! ## Claims -/

/-- C9: for every input to the Time Normalizer that is not one of the four
when-representation variants, the call fails with the invalid-input error
(a `ValueError` carrying the unknown-type message) rather than returning a result. -/
theorem parse_when_rejects_unknown_shape (shape user_timezone : String) :
    parse_when (WhenData.unknown shape) user_timezone =
      .error (.valueError "Unknown when_data type.") := rfl

/-- C5: whenever the Time Normalizer returns, the all-day flag is `true` iff
the when-representation variant is date-based (`Date` or `Datespan`). -/
theorem parse_when_all_day_iff_date_based (w : WhenData) (user_timezone : String)
    (st et : Option PDateTime) (ad : Bool)
    (h : parse_when w user_timezone = .ok (st, et, ad)) : ad = w.isDateBased := by
  cases w with
  | time t tz => simp [parse_when] at h; simp [WhenData.isDateBased, h]
  | timespan a b tza tzb => simp [parse_when] at h; simp [WhenData.isDateBased, h]
  | date d =>
    simp only [parse_when] at h
    cases hp : pendulum_parse d user_timezone with
    | none => rw [hp] at h; cases h
    | some dt => rw [hp] at h; simp at h; simp [WhenData.isDateBased, h]
  | datespan d1 d2 =>
    simp only [parse_when] at h
    cases hp : pendulum_parse d1 user_timezone with
    | none => rw [hp] at h; cases h
    | some dt1 =>
      rw [hp] at h
      cases hq : pendulum_parse d2 user_timezone with
      | none => rw [hq] at h; cases h
      | some dt2 => rw [hq] at h; simp at h; simp [WhenData.isDateBased, h]
  | unknown s => simp [parse_when] at h

/-- C5 witness: the concrete date `2023-10-15` normalizes with all-day true. -/
theorem parse_when_all_day_iff_date_based_witness :
    true = (WhenData.date "2023-10-15").isDateBased :=
  parse_when_all_day_iff_date_based (WhenData.date "2023-10-15") "UTC"
    (some ⟨1697328000, "UTC"⟩) (some ⟨1697414399, "UTC"⟩) true (by decide)

/-- C7: `undo_last_action` on an empty history returns the no-op message,
leaves the history empty and makes no collaborator call; popping a delete
entry with no captured snapshot returns a descriptive string (no exception). -/
theorem undo_last_action_total_on_empty_and_missing_snapshot
    (api : Api) (calendar_id : String) :
    undo_last_action api calendar_id [] = (.ok "No actions to undo.", [], []) ∧
    ∀ (hist : List ActionHistoryEntry) (event_id : String),
      undo_last_action api calendar_id
          (hist ++ [{ action := "delete", event_id := event_id, event_data := none }]) =
        (.ok "No event data to recreate the event.", hist, []) := by
  refine ⟨rfl, fun hist event_id => ?_⟩
  simp [undo_last_action, List.getLast?_concat, List.dropLast_concat]

/-- C2: `delete_event` fetches the snapshot before deleting: a failed fetch
propagates with no delete call and an unchanged history, while a successful
fetch-then-delete appends exactly one `delete` entry carrying that snapshot. -/
theorem delete_event_snapshot_then_delete (api : Api) (calendar_id : String)
    (hist : List ActionHistoryEntry) (event_id : String) :
    (∀ e, api.find event_id = .error e →
      delete_event api calendar_id hist event_id =
        (.error e, hist, [.find event_id])) ∧
    (∀ ev, api.find event_id = .ok ev → api.destroy event_id = .ok () →
      delete_event api calendar_id hist event_id =
        (.ok (),
         hist ++ [{ action := "delete", event_id := event_id, event_data := some ev }],
         [.find event_id, .destroy event_id])) := by
  constructor
  · intro e he; simp [delete_event, he]
  · intro ev he hd; simp [delete_event, he, hd]

/-- C2 witness: against a succeeding collaborator, deleting `evt1` appends the
snapshot-carrying entry after issuing find then destroy. -/
theorem delete_event_snapshot_then_delete_witness :
    delete_event wApiOk "primary" [] "evt1" =
      (.ok (),
       [{ action := "delete", event_id := "evt1", event_data := some wNev }],
       [.find "evt1", .destroy "evt1"]) :=
  (delete_event_snapshot_then_delete wApiOk "primary" [] "evt1").2 wNev rfl rfl

/-- C3: `undo_last_action` pops exactly the most recent entry; undoing a
`create` issues exactly one delete call and returns a confirmation; undoing a
`delete` with a captured snapshot issues exactly one create call built from the
snapshot and returns a message carrying the newly assigned identifier. -/
theorem undo_last_action_lifo (api : Api) (calendar_id : String)
    (hist : List ActionHistoryEntry) (entry : ActionHistoryEntry) :
    (undo_last_action api calendar_id (hist ++ [entry])).2.1 = hist ∧
    (entry.action = "create" → api.destroy entry.event_id = .ok () →
      undo_last_action api calendar_id (hist ++ [entry]) =
        (.ok ("Creation of event " ++ entry.event_id ++ " has been undone."),
         hist, [.destroy entry.event_id])) ∧
    (entry.action = "delete" →
      ∀ ev recreated, entry.event_data = some ev →
        api.create (undoRecreateRequest ev) = .ok recreated →
        undo_last_action api calendar_id (hist ++ [entry]) =
          (.ok ("Deletion of event " ++ entry.event_id ++
                " has been undone. New event ID is " ++ recreated.id ++ "."),
           hist, [.create (undoRecreateRequest ev)])) := by
  refine ⟨?_, ?_, ?_⟩
  · simp only [undo_last_action, List.getLast?_concat, List.dropLast_concat]
    split
    · split <;> rfl
    · split
      · split
        · rfl
        · split <;> rfl
      · rfl
  · intro hc hd
    simp [undo_last_action, List.getLast?_concat, List.dropLast_concat, hc, hd]
  · intro hc ev recreated hev hcr
    simp [undo_last_action, List.getLast?_concat, List.dropLast_concat, hc, hev, hcr]

/-- C3 witness: undoing a recorded creation against a succeeding collaborator
issues exactly the one destroy call and confirms. -/
theorem undo_last_action_lifo_witness :
    undo_last_action wApiOk "primary"
        [{ action := "create", event_id := "evt1" }] =
      (.ok ("Creation of event " ++ "evt1" ++ " has been undone."),
       [], [.destroy "evt1"]) :=
  (undo_last_action_lifo wApiOk "primary" []
    { action := "create", event_id := "evt1" }).2.1 rfl rfl

/-- C8 counterexample: for a reference instant inside UTC day 0, the issued
query window ends at epoch 86399 (the last second of the local day, the pendulum
`end_of(day)` value), not at the next local midnight 86400 as the claim states. -/
theorem get_todays_events_counterexample :
    (get_todays_events wApiOk "UTC" "primary" ⟨1000, "UTC"⟩).2 =
      [.list { calendar_id := "primary", start := 0, end_ := some 86399,
               limit := 100, expand_recurring := true, page_token := none }] ∧
    (86399 : Int) ≠ 86400 := by decide

/-- C8 amended: the today-window query passes `listEvents` a window from the local
midnight beginning the day to the *last second* of that day (one second before
the next local midnight), i.e. `end = start_of_day + 86400 - 1`. -/
theorem get_todays_events_window (api : Api) (user_timezone calendar_id : String)
    (reference_date : PDateTime)
    (h : (reference_date.end_of_day).epoch ≠ 0) :
    (get_todays_events api user_timezone calendar_id reference_date).2 =
      [.list { calendar_id := calendar_id
               start := reference_date.start_of_day.epoch
               end_ := some reference_date.end_of_day.epoch
               limit := 100, expand_recurring := true, page_token := none }] ∧
    reference_date.end_of_day.epoch = reference_date.start_of_day.epoch + 86400 - 1 := by
  constructor
  · simp only [get_todays_events, get_events, PDateTime.int_timestamp,
      pyOrNone, pyLimitOr100, if_neg h]
    split
    · rfl
    · split <;> rfl
  · simp [PDateTime.end_of_day]; omega

/-- C8 witness: the amended window shape at a concrete UTC reference instant. -/
theorem get_todays_events_window_witness :
    (get_todays_events wApiOk "UTC" "primary" ⟨100000, "UTC"⟩).2 =
      [.list { calendar_id := "primary"
               start := (PDateTime.start_of_day ⟨100000, "UTC"⟩).epoch
               end_ := some (PDateTime.end_of_day ⟨100000, "UTC"⟩).epoch
               limit := 100, expand_recurring := true, page_token := none }] ∧
    (PDateTime.end_of_day ⟨100000, "UTC"⟩).epoch =
      (PDateTime.start_of_day ⟨100000, "UTC"⟩).epoch + 86400 - 1 :=
  get_todays_events_window wApiOk "UTC" "primary" ⟨100000, "UTC"⟩ (by decide)

/-- Whether both collaborator calls made by `delete_event` for this id would
succeed (deletion of this event succeeds). -/
def deleteSucceeds (api : Api) (event_id : String) : Bool :=
  (api.find event_id).toOption.isSome && (api.destroy event_id).toOption.isSome

/-- The success counter of the cleanup loop counts exactly the events whose
individual deletion succeeds, and the loop never aborts. -/
theorem cleanup_loop_count (api : Api) (calendar_id : String) :
    ∀ (events : List Event) (hist : List ActionHistoryEntry),
      (cleanup_loop api calendar_id events hist).1 =
        (events.filter (fun ev => deleteSucceeds api ev.id)).length := by
  intro events
  induction events with
  | nil => intro hist; rfl
  | cons ev rest ih =>
    intro hist
    cases hf : api.find ev.id with
    | error e =>
      simp [cleanup_loop, delete_event, hf, deleteSucceeds, ih,
        List.filter_cons, Except.toOption]
    | ok found =>
      cases hd : api.destroy ev.id with
      | error e =>
        simp [cleanup_loop, delete_event, hf, hd, deleteSucceeds, ih,
          List.filter_cons, Except.toOption]
      | ok u =>
        simp [cleanup_loop, delete_event, hf, hd, deleteSucceeds, ih,
          List.filter_cons, Except.toOption]

/-- A collaborator holding one qualifying event whose individual deletion
fails (the pre-delete fetch errors). -/
def cleanupNev : NylasEvent :=
  { id := "old1", title := "Old Event", when := .time 5 "UTC" }

def cleanupApi : Api :=
  { find := fun _ => .error (.nylasApiError "cannot fetch")
    destroy := fun _ => .ok ()
    create := fun _ => .error (.unknownError "unused")
    listSingle := fun _ => .ok []
    pages := [{ resp := .ok [cleanupNev], next_cursor := none }]
    sanitize := fun s => s }

/-- C1 counterexample: one qualifying event, its deletion fails, yet the
reported count is 1 — not the 0 (= N − 1) successful deletions the claim
requires. -/
theorem cleanup_calendar_counterexample :
    (cleanup_calendar cleanupApi "UTC" "primary" ⟨1700000000, "UTC"⟩ 30 []).1 =
      .ok (1, 0) ∧ (1 : Nat) ≠ 1 - 1 := by decide

/-- C1 amended: `cleanup_calendar` reports the count of *listed qualifying
events* (`len(events_to_delete)`), regardless of how many individual deletions
succeed; individual failures are skipped and the operation still completes,
with the number of actually successful deletions possibly smaller. -/
theorem cleanup_calendar_reports_listed_count (api : Api)
    (user_timezone calendar_id : String) (now : PDateTime) (days_to_keep : Int)
    (hist : List ActionHistoryEntry) (events : List Event)
    (h : (get_all_events api user_timezone calendar_id
            ((now.add_years (-10)).start_of_day.int_timestamp)
            (some ((now.sub_days days_to_keep).end_of_day.int_timestamp))).1 =
          .ok events) :
    (cleanup_calendar api user_timezone calendar_id now days_to_keep hist).1 =
      .ok (events.length,
           (events.filter (fun ev => deleteSucceeds api ev.id)).length) := by
  rcases hg : get_all_events api user_timezone calendar_id
      ((now.add_years (-10)).start_of_day.int_timestamp)
      (some ((now.sub_days days_to_keep).end_of_day.int_timestamp)) with ⟨res, tr⟩
  rw [hg] at h
  simp only at h
  subst h
  simp [cleanup_calendar, hg, cleanup_loop_count]

/-- The normalized form of `cleanupNev`, as listed by `get_all_events`. -/
def cleanupParsedEv : Event :=
  { id := "old1", title := "Old Event",
    start_time := some ⟨5, "UTC"⟩, end_time := some ⟨5, "UTC"⟩ }

/-- C1 witness: for the concrete one-event collaborator, the report is the
listed count (1) while the successful-deletion count is computed as 0. -/
theorem cleanup_calendar_reports_listed_count_witness :
    (cleanup_calendar cleanupApi "UTC" "primary" ⟨1700000000, "UTC"⟩ 30 []).1 =
      .ok ([cleanupParsedEv].length,
           ([cleanupParsedEv].filter
              (fun ev => deleteSucceeds cleanupApi ev.id)).length) :=
  cleanup_calendar_reports_listed_count cleanupApi "UTC" "primary"
    ⟨1700000000, "UTC"⟩ 30 [] [cleanupParsedEv] (by decide)

/-- The create operation of the mocked collaborator: echo the request fields back as the
stored event under a freshly assigned id. -/
def echoEvent (req : CreateEventRequest) (new_id : String) : NylasEvent :=
  { id := new_id
    title := req.title
    when := req.when
    participants := req.participants.getD []
    location := req.location
    description := req.description
    metadata := req.metadata
    visibility := req.visibility
    busy := req.busy
    capacity := req.capacity
    hide_participants := req.hide_participants }

/-- The attendee list compared as a set (an absent list is the empty set). -/
def attendeeFinset (o : Option (List String)) : Finset String :=
  (o.getD []).toFinset

/-- C4: translating an `EventData` to an outbound create request and parsing
the resulting event back through the inbound parser preserves the title, the
location, the attendee set, and the all-day flag. -/
theorem translate_roundtrip_preserves (sanitize : String → String)
    (user_timezone new_id : String) (input : EventData)
    (req : CreateEventRequest) (ev : Event)
    (h1 : toCreateRequest user_timezone input = some req)
    (h2 : parse_nylas_event sanitize (echoEvent req new_id) user_timezone = .ok ev) :
    ev.title = input.title ∧ ev.location = input.location ∧
    attendeeFinset ev.attendees = attendeeFinset input.attendees ∧
    ev.all_day = input.all_day := by
  rcases hp : pendulum_parse input.when user_timezone with _ | dt
  · rw [toCreateRequest, hp] at h1; cases h1
  · rw [toCreateRequest, hp] at h1
    simp only [Option.some.injEq] at h1
    subst h1
    rcases hw : parse_when (echoEvent _ new_id).when user_timezone with e | ⟨st, et, ad⟩
    · rw [parse_nylas_event, hw] at h2; cases h2
    · rw [parse_nylas_event, hw] at h2
      simp only [Except.ok.injEq] at h2
      subst h2
      refine ⟨rfl, rfl, ?_, ?_⟩
      · -- attendee set preservation
        rcases ha : input.attendees with _ | atts

        · simp [echoEvent, ha]
        · rcases atts with _ | ⟨a, rest⟩
          · simp [echoEvent, ha, attendeeFinset]
          · simp [echoEvent, ha, attendeeFinset, List.map_map, Function.comp_def]
      · -- all-day flag preservation
        rcases hd : input.all_day
        · simp only [echoEvent, hd, Bool.false_eq_true, if_false] at hw
          simp [parse_when] at hw
          simp [hw]
        · simp only [echoEvent, hd, if_true] at hw
          simp only [parse_when] at hw
          rcases hq : pendulum_parse (PDateTime.to_date_string dt) user_timezone with _ | d2
          · rw [hq] at hw; cases hw
          · rw [hq] at hw; simp at hw; simp [hw]

/-- Concrete witness input for C4. -/
def wInput : EventData :=
  { title := "Team Meeting", when := "2023-10-15T10:00:00",
    location := some "Conference Room A",
    attendees := some ["alice@example.com", "bob@example.com"] }

def wReq : CreateEventRequest :=
  (toCreateRequest "UTC" wInput).getD { title := "", when := .unknown "" }

def wEv : Event :=
  ((parse_nylas_event (fun s => s) (echoEvent wReq "n1") "UTC").toOption).getD
    { id := "", title := "" }

/-- C4 witness: the round trip at a concrete input preserves all four fields. -/
theorem translate_roundtrip_preserves_witness :
    wEv.title = wInput.title ∧ wEv.location = wInput.location ∧
    attendeeFinset wEv.attendees = attendeeFinset wInput.attendees ∧
    wEv.all_day = wInput.all_day :=
  translate_roundtrip_preserves (fun s => s) "UTC" "n1" wInput wReq wEv
    (by decide) (by decide)

/-- Characterization of a stable descending sort by a `Nat` key: it permutes
the input, is sorted descending, and preserves the relative input order on
every equal-key class. -/
theorem stable_desc_sort_char (key : Event → Nat) (l : List Event) :
    (l.mergeSort (fun a b => decide (key b ≤ key a))).Perm l ∧
    (l.mergeSort (fun a b => decide (key b ≤ key a))).Pairwise
      (fun a b => key b ≤ key a) ∧
    ∀ s, (l.mergeSort (fun a b => decide (key b ≤ key a))).filter
           (fun e => decide (key e = s)) =
         l.filter (fun e => decide (key e = s)) := by
  have htrans : ∀ (a b c : Event), decide (key b ≤ key a) → decide (key c ≤ key b) →
      decide (key c ≤ key a) := by
    intro a b c hab hbc
    simp only [decide_eq_true_eq] at *
    omega
  have htotal : ∀ (a b : Event),
      decide (key b ≤ key a) || decide (key a ≤ key b) := by
    intro a b
    simp only [Bool.or_eq_true, decide_eq_true_eq]
    exact Nat.le_total _ _
  refine ⟨List.mergeSort_perm l _, ?_, ?_⟩
  · exact (List.sorted_mergeSort htrans htotal l).imp (fun h => by simpa using h)
  · intro s
    have hcc : (l.filter (fun e => decide (key e = s))).filter
        (fun e => decide (key e = s)) = l.filter (fun e => decide (key e = s)) := by
      simp [List.filter_filter]
    have hcsub : List.Sublist (l.filter (fun e => decide (key e = s)))
        (l.mergeSort (fun a b => decide (key b ≤ key a))) := by
      apply List.sublist_mergeSort htrans htotal
      · apply List.pairwise_of_forall_mem_list
        intro a ha b hb
        have ha' := List.of_mem_filter ha
        have hb' := List.of_mem_filter hb
        simp only [decide_eq_true_eq] at ha' hb' ⊢
        omega
      · exact List.filter_sublist l
    have hfil : List.Sublist (l.filter (fun e => decide (key e = s)))
        ((l.mergeSort (fun a b => decide (key b ≤ key a))).filter
          (fun e => decide (key e = s))) := by
      have h := hcsub.filter (fun e => decide (key e = s))
      rwa [hcc] at h
    have hperm : ((l.mergeSort (fun a b => decide (key b ≤ key a))).filter
        (fun e => decide (key e = s))).Perm (l.filter (fun e => decide (key e = s))) :=
      (List.mergeSort_perm l _).filter _
    exact (hfil.eq_of_length hperm.length_eq.symm).symm

/-- C10: fuzzy search returns exactly the events scoring at or above the
threshold, sorted by descending score, with equal-score events kept in their
original relative input order (the Python `list.sort` is stable). -/
theorem fuzzy_search_events_characterization (score : String → String → Nat)
    (events : List Event) (search_query : String) (threshold : Nat) :
    (fuzzy_search_events score events search_query threshold).Perm
      (events.filter
        (fun e => threshold ≤ score search_query.toLower e.title.toLower)) ∧
    (fuzzy_search_events score events search_query threshold).Pairwise
      (fun a b => score search_query.toLower b.title.toLower ≤
                  score search_query.toLower a.title.toLower) ∧
    ∀ s, (fuzzy_search_events score events search_query threshold).filter
           (fun e => score search_query.toLower e.title.toLower = s) =
         (events.filter
            (fun e => threshold ≤ score search_query.toLower e.title.toLower)).filter
           (fun e => score search_query.toLower e.title.toLower = s) :=
  stable_desc_sort_char
    (fun e => score search_query.toLower e.title.toLower)
    (events.filter (fun e => decide (threshold ≤ score search_query.toLower e.title.toLower)))

/-- The normalized events of one scripted page (its fetch result passed
through the inbound parser), as `get_all_events` would consume it. -/
def pageEvents (sanitize : String → String) (user_timezone : String)
    (p : PageScript) : Except Err (List Event) :=
  match p.resp with
  | .error e => .error e
  | .ok evs => parseEvents sanitize user_timezone evs

/-- The normalized events of all pages in page order, or the first page failure. -/
def pagesEvents (sanitize : String → String) (user_timezone : String) :
    List PageScript → Except Err (List (List Event))
  | [] => .ok []
  | p :: rest =>
    match pageEvents sanitize user_timezone p with
    | .error e => .error e
    | .ok x =>
      match pagesEvents sanitize user_timezone rest with
      | .error e => .error e
      | .ok xs => .ok (x :: xs)

/-- Well-formed collaborator script: non-empty, every page but the last
reports a continuation cursor, and the last reports none. -/
def wf_script : List PageScript → Bool
  | [] => false
  | [p] => p.next_cursor.isNone
  | p :: q :: rest => p.next_cursor.isSome && wf_script (q :: rest)

/-- Behaviour of the pagination loop on a well-formed script: the result is
the page-order concatenation of all successfully fetched-and-parsed pages (or
the first failure), the first request carries no token, each later request
carries the cursor of the previous page, and every request has the fixed window
and limit. -/
theorem gae_loop_char (sanitize : String → String)
    (user_timezone calendar_id : String) (start endv : Int) :
    ∀ (script : List PageScript) (tok : Option String) (acc : List Event),
      wf_script script = true →
      (gae_loop sanitize user_timezone calendar_id start endv script tok acc).1 =
        (pagesEvents sanitize user_timezone script).map
          (fun ps => acc ++ ps.flatten) ∧
      (gae_loop sanitize user_timezone calendar_id start endv script tok acc).2 ≠ [] ∧
      (gae_loop sanitize user_timezone calendar_id start endv script tok acc).2.map
          ListEventQueryParams.page_token =
        tok :: (script.take
          ((gae_loop sanitize user_timezone calendar_id start endv script tok acc).2.length
            - 1)).map PageScript.next_cursor ∧
      ∀ qp ∈ (gae_loop sanitize user_timezone calendar_id start endv script tok acc).2,
        qp = mkPageQP calendar_id start endv qp.page_token := by
  intro script
  induction script with
  | nil => intro tok acc hwf; cases hwf
  | cons p rest ih =>
    intro tok acc hwf
    cases hr : p.resp with
    | error e =>
      refine ⟨?_, ?_, ?_, ?_⟩
      · simp [gae_loop, hr, pageEvents, pagesEvents, Except.map]
      · simp [gae_loop, hr]
      · simp [gae_loop, hr, mkPageQP]
      · simp [gae_loop, hr, mkPageQP]
    | ok evs =>
      cases hm : parseEvents sanitize user_timezone evs with
      | error e =>
        refine ⟨?_, ?_, ?_, ?_⟩
        · simp [gae_loop, hr, hm, pageEvents, pagesEvents, Except.map]
        · simp [gae_loop, hr, hm]
        · simp [gae_loop, hr, hm, mkPageQP]
        · simp [gae_loop, hr, hm, mkPageQP]
      | ok parsed =>
        cases hc : p.next_cursor with
        | none =>
          cases rest with
          | cons q rs => simp [wf_script, hc] at hwf
          | nil =>
            refine ⟨?_, ?_, ?_, ?_⟩
            · simp [gae_loop, hr, hm, hc, pageEvents, pagesEvents, Except.map]
            · simp [gae_loop, hr, hm, hc]
            · simp [gae_loop, hr, hm, hc, mkPageQP]
            · simp [gae_loop, hr, hm, hc, mkPageQP]
        | some c =>
          cases rest with
          | nil => simp [wf_script, hc] at hwf
          | cons q rs =>
            have hwf' : wf_script (q :: rs) = true := by
              simp [wf_script, hc] at hwf; exact hwf
            obtain ⟨ih1, ih2, ih3, ih4⟩ := ih (some c) (acc ++ parsed) hwf'
            obtain ⟨x, xs, hx⟩ := List.exists_cons_of_ne_nil ih2
            have hstep : gae_loop sanitize user_timezone calendar_id start endv
                (p :: q :: rs) tok acc =
              ((gae_loop sanitize user_timezone calendar_id start endv (q :: rs)
                  (some c) (acc ++ parsed)).1,
               mkPageQP calendar_id start endv tok ::
                 (gae_loop sanitize user_timezone calendar_id start endv (q :: rs)
                   (some c) (acc ++ parsed)).2) := by
              simp only [gae_loop, hr, hm, hc]
            refine ⟨?_, ?_, ?_, ?_⟩
            · rw [hstep]
              simp only [ih1]
              have hpages : pagesEvents sanitize user_timezone (p :: q :: rs) =
                  match pagesEvents sanitize user_timezone (q :: rs) with
                  | .error e => .error e
                  | .ok xs => .ok (parsed :: xs) := by
                simp only [pagesEvents, pageEvents, hr, hm]
              rw [hpages]
              cases hmm : pagesEvents sanitize user_timezone (q :: rs) with
              | error e => simp [Except.map]
              | ok pss => simp [Except.map, List.append_assoc]
            · rw [hstep]
              simp
            · rw [hstep]
              simp only [List.map_cons, List.length_cons]
              rw [ih3, hx]
              simp [List.take_succ_cons, hc, mkPageQP]
            · intro qp hqp
              rw [hstep] at hqp
              simp only [List.mem_cons] at hqp
              rcases hqp with h | h
              · subst h; rfl
              · exact ih4 qp h

/-- C6: `get_all_events` pages with limit 200 over the fixed window (default
end = start + 1 calendar year), follows the continuation token until the
collaborator reports no further pages, and returns the concatenation of all
pages in page order; any page failure makes the whole call fail with no
partial result. -/
theorem get_all_events_pagination (api : Api) (user_timezone calendar_id : String)
    (start : Int) (end_ : Option Int)
    (hwf : wf_script api.pages = true) :
    (get_all_events api user_timezone calendar_id start end_).1 =
      (pagesEvents api.sanitize user_timezone api.pages).map List.flatten ∧
    (get_all_events api user_timezone calendar_id start end_).2.map
        ListEventQueryParams.page_token =
      none :: (api.pages.take
        ((get_all_events api user_timezone calendar_id start end_).2.length - 1)).map
          PageScript.next_cursor ∧
    ∀ qp ∈ (get_all_events api user_timezone calendar_id start end_).2,
      qp.calendar_id = calendar_id ∧ qp.start = start ∧
      qp.end_ = some (end_.getD ((PDateTime.add_years ⟨start, "UTC"⟩ 1).int_timestamp)) ∧
      qp.limit = 200 := by
  cases end_ with
  | none =>
    obtain ⟨h1, h2, h3, h4⟩ := gae_loop_char api.sanitize user_timezone calendar_id
      start ((PDateTime.add_years ⟨start, "UTC"⟩ 1).int_timestamp) api.pages none [] hwf
    refine ⟨?_, ?_, ?_⟩
    · rw [show (get_all_events api user_timezone calendar_id start none).1 =
          (gae_loop api.sanitize user_timezone calendar_id start
            ((PDateTime.add_years ⟨start, "UTC"⟩ 1).int_timestamp)
            api.pages none []).1 from rfl, h1]
      cases pagesEvents api.sanitize user_timezone api.pages <;> simp [Except.map]
    · exact h3
    · intro qp hqp
      have h := h4 qp hqp
      rw [h]
      simp [mkPageQP, Option.getD]
  | some e =>
    obtain ⟨h1, h2, h3, h4⟩ := gae_loop_char api.sanitize user_timezone calendar_id
      start e api.pages none [] hwf
    refine ⟨?_, ?_, ?_⟩
    · rw [show (get_all_events api user_timezone calendar_id start (some e)).1 =
          (gae_loop api.sanitize user_timezone calendar_id start e
            api.pages none []).1 from rfl, h1]
      cases pagesEvents api.sanitize user_timezone api.pages <;> simp [Except.map]
    · exact h3
    · intro qp hqp
      have h := h4 qp hqp
      rw [h]
      simp [mkPageQP, Option.getD]

/-- A collaborator scripted with three successful pages whose first two report
continuation cursors. -/
def gaeApi : Api :=
  { find := fun _ => .error (.unknownError "unused")
    destroy := fun _ => .ok ()
    create := fun _ => .error (.unknownError "unused")
    listSingle := fun _ => .ok []
    pages := [{ resp := .ok [{ id := "a", title := "A", when := .time 1 "UTC" }]
                next_cursor := some "c1" },
              { resp := .ok [{ id := "b", title := "B", when := .time 2 "UTC" }]
                next_cursor := some "c2" },
              { resp := .ok [{ id := "c", title := "C", when := .time 3 "UTC" }]
                next_cursor := none }]
    sanitize := fun s => s }

/-- C6 witness: over the three-page script, the result is the page-order
concatenation of all pages. -/
theorem get_all_events_pagination_witness :
    (get_all_events gaeApi "UTC" "primary" 0 (some 1000)).1 =
      (pagesEvents gaeApi.sanitize "UTC" gaeApi.pages).map List.flatten :=
  (get_all_events_pagination gaeApi "UTC" "primary" 0 (some 1000) (by decide)).1

end CalSpec
